import Mathlib

/-!
Shallow embedding of the PDF question-extraction pipeline
(credential rotator, inference-gateway response parsing, response
parser, page convergence loop, document orchestrator), with theorems
settling the specification claims about it.

Sources embedded: `src/App.tsx` (two-pass variant), `src/lib/gemini.ts`
(round robin, analyzeImage, verifyExtraction), and the legacy
single-pass `App.tsx` revision kept alongside the current one.
-/

/-- Result of a verification call: a numeric score and free-text
feedback, as returned by `GeminiRoundRobin.verifyExtraction`. -/
structure VerificationResult where
  score : Int
  feedback : String
deriving DecidableEq

/-! ## Credential rotator (`GeminiRoundRobin`, src/lib/gemini.ts) -/

/-- State of the rotator: the (already blank-filtered) client list and
the cursor `currentIndex`. -/
structure GeminiRoundRobin where
  clients : List String
  currentIndex : Nat
deriving DecidableEq

/-- Embedding of `getNextClient`: `none` models the thrown
"No valid API keys provided" error on an empty pool; otherwise the
client at the cursor is returned and the cursor advances modulo the
pool size. -/
def getNextClient (rr : GeminiRoundRobin) : Option (String × GeminiRoundRobin) :=
  if rr.clients.length = 0 then
    none
  else
    some (rr.clients.getD rr.currentIndex "",
      { clients := rr.clients, currentIndex := (rr.currentIndex + 1) % rr.clients.length })

/-- State after one `getNextClient` call (identity on the empty pool,
where the source throws instead). -/
def rrStep (rr : GeminiRoundRobin) : GeminiRoundRobin :=
  match getNextClient rr with
  | some (_, rr2) => rr2
  | none => rr

/-- State after `n` consecutive `getNextClient` calls. -/
def rrAfter (rr : GeminiRoundRobin) : Nat → GeminiRoundRobin
  | 0 => rr
  | n + 1 => rrStep (rrAfter rr n)

/-- Client returned by the `(n+1)`-th consecutive `getNextClient` call
(0-indexed `n`). -/
def nthClient (rr : GeminiRoundRobin) (n : Nat) : Option String :=
  (getNextClient (rrAfter rr n)).map Prod.fst

theorem rrAfter_front (rr : GeminiRoundRobin) :
    ∀ n, rrAfter rr (n + 1) = rrAfter (rrStep rr) n
  | 0 => rfl
  | n + 1 => by
    show rrStep (rrAfter rr (n + 1)) = rrStep (rrAfter (rrStep rr) n)
    rw [rrAfter_front rr n]

theorem rrStep_eq (cl : List String) (idx : Nat) (h : cl.length ≠ 0) :
    rrStep ⟨cl, idx⟩ = ⟨cl, (idx + 1) % cl.length⟩ := by
  simp [rrStep, getNextClient, h]

theorem rrAfter_index (cl : List String) (h : 0 < cl.length) :
    ∀ n, rrAfter ⟨cl, 0⟩ n = ⟨cl, n % cl.length⟩ := by
  intro n
  induction n with
  | zero => simp [rrAfter]
  | succ n ih =>
    show rrStep (rrAfter ⟨cl, 0⟩ n) = _
    rw [ih, rrStep_eq cl _ (by omega)]
    rw [Nat.mod_add_mod]

/-- C4: for a fresh rotator over a pool of `K ≥ 1` clients, the first
`K` calls return the clients in insertion order (hence each exactly
once), the `(K+1)`-th call returns the first client again, and the
cursor is a valid index into the pool after any number of calls. -/
theorem claim4_round_robin (cl : List String) (h : 1 ≤ cl.length) :
    (∀ n, n < cl.length → nthClient ⟨cl, 0⟩ n = some (cl.getD n ""))
    ∧ nthClient ⟨cl, 0⟩ cl.length = some (cl.getD 0 "")
    ∧ (∀ n, (rrAfter ⟨cl, 0⟩ n).currentIndex < cl.length) := by
  have hlen : cl.length ≠ 0 := by omega
  refine ⟨?_, ?_, ?_⟩
  · intro n hn
    rw [nthClient, rrAfter_index cl (by omega) n]
    simp [getNextClient, hlen, Nat.mod_eq_of_lt hn]
  · rw [nthClient, rrAfter_index cl (by omega) cl.length]
    simp [getNextClient, hlen, Nat.mod_self]
  · intro n
    rw [rrAfter_index cl (by omega) n]
    exact Nat.mod_lt _ (by omega)

/-- Concrete three-client pool used to witness `claim4_round_robin`. -/
def rrPoolW : GeminiRoundRobin := ⟨["k1", "k2", "k3"], 0⟩

theorem claim4_witness :
    nthClient rrPoolW 0 = some "k1" ∧ nthClient rrPoolW 1 = some "k2"
    ∧ nthClient rrPoolW 2 = some "k3" ∧ nthClient rrPoolW 3 = some "k1" := by
  have h := claim4_round_robin ["k1", "k2", "k3"] (by decide)
  exact ⟨h.1 0 (by decide), h.1 1 (by decide), h.1 2 (by decide), h.2.1⟩

/-! ## Inference gateway: `analyzeImage` retry loop (src/lib/gemini.ts) -/

/-- JavaScript whitespace class (the characters matched by `\s` and
removed by `String.prototype.trim`, restricted to the common members:
space, tab, line feed, carriage return, vertical tab, form feed,
no-break space). -/
def jsWs (c : Char) : Bool :=
  c == ' ' || c == '\t' || c == '\n' || c == '\r' || c == '\x0b' || c == '\x0c'
    || c == '\u00a0'

/-- Model of `String.prototype.trim`: strip leading and trailing
JavaScript whitespace. -/
def jsTrim (s : String) : String :=
  String.mk (((s.data.dropWhile jsWs).reverse.dropWhile jsWs).reverse)

/-- Outcome of one underlying model call inside `analyzeImage`:
either the call threw, or it produced a response text. -/
inductive ModelResp where
  | exn
  | ok (text : String)
deriving DecidableEq

/-- A response is usable when the call did not throw and the text is
not empty or whitespace-only (`!text || text.trim().length === 0` is
treated as a retryable failure). -/
def goodResp : ModelResp → Bool
  | .exn => false
  | .ok t => !(jsTrim t == "")

/-- Result of `analyzeImage`: the returned text or the propagated
"All API keys failed" error (abstracted to `Unit`), together with the
number of attempts spent and the final rotator state. -/
structure AnalyzeResult where
  result : Except Unit String
  attempts : Nat
  final : GeminiRoundRobin

/-- Embedding of the `for (let i = 0; i < retries && i < this.clients.length; i++)`
loop of `analyzeImage`: each attempt acquires a fresh client via
`getNextClient`, an empty or whitespace-only text throws (caught as a
failure), and after the loop the last error propagates. -/
def analyzeLoop (oracle : Nat → ModelResp) (retries : Nat) (i : Nat)
    (rr : GeminiRoundRobin) : AnalyzeResult :=
  if h : i < retries ∧ i < rr.clients.length then
    match getNextClient rr with
    | none => ⟨.error (), i, rr⟩
    | some (_, rr2) =>
      match oracle i with
      | .ok t =>
        if jsTrim t == "" then analyzeLoop oracle retries (i + 1) rr2
        else ⟨.ok t, i + 1, rr2⟩
      | .exn => analyzeLoop oracle retries (i + 1) rr2
  else
    ⟨.error (), i, rr⟩
termination_by retries - i
decreasing_by
  all_goals omega

/-- Embedding of `analyzeImage` itself, starting the retry loop at
attempt 0. -/
def analyzeImage (rr : GeminiRoundRobin) (oracle : Nat → ModelResp) (retries : Nat) :
    AnalyzeResult :=
  analyzeLoop oracle retries 0 rr

theorem analyzeLoop_exit (oracle : Nat → ModelResp) (retries : Nat) (cl : List String)
    (idx i : Nat) (h : ¬(i < retries ∧ i < cl.length)) :
    analyzeLoop oracle retries i ⟨cl, idx⟩ = ⟨.error (), i, ⟨cl, idx⟩⟩ := by
  rw [analyzeLoop, dif_neg]
  exact h

theorem analyzeLoop_step_exn (oracle : Nat → ModelResp) (retries : Nat) (cl : List String)
    (idx i : Nat) (hi : i < retries) (hl : i < cl.length) (ho : oracle i = .exn) :
    analyzeLoop oracle retries i ⟨cl, idx⟩
      = analyzeLoop oracle retries (i + 1) ⟨cl, (idx + 1) % cl.length⟩ := by
  rw [analyzeLoop, dif_pos (⟨hi, hl⟩ : i < retries ∧ i < cl.length)]
  simp only [getNextClient]
  rw [if_neg (show ¬cl.length = 0 by omega), ho]

theorem analyzeLoop_step_empty (oracle : Nat → ModelResp) (retries : Nat) (cl : List String)
    (idx i : Nat) (t : String) (hi : i < retries) (hl : i < cl.length)
    (ho : oracle i = .ok t) (ht : (jsTrim t == "") = true) :
    analyzeLoop oracle retries i ⟨cl, idx⟩
      = analyzeLoop oracle retries (i + 1) ⟨cl, (idx + 1) % cl.length⟩ := by
  rw [analyzeLoop, dif_pos (⟨hi, hl⟩ : i < retries ∧ i < cl.length)]
  simp only [getNextClient]
  rw [if_neg (show ¬cl.length = 0 by omega), ho]
  simp [ht]

theorem analyzeLoop_step_good (oracle : Nat → ModelResp) (retries : Nat) (cl : List String)
    (idx i : Nat) (t : String) (hi : i < retries) (hl : i < cl.length)
    (ho : oracle i = .ok t) (ht : (jsTrim t == "") = false) :
    analyzeLoop oracle retries i ⟨cl, idx⟩
      = ⟨.ok t, i + 1, ⟨cl, (idx + 1) % cl.length⟩⟩ := by
  rw [analyzeLoop, dif_pos (⟨hi, hl⟩ : i < retries ∧ i < cl.length)]
  simp only [getNextClient]
  rw [if_neg (show ¬cl.length = 0 by omega), ho]
  simp [ht]

theorem analyzeLoop_all_bad (oracle : Nat → ModelResp) (retries : Nat) (cl : List String) :
    ∀ m i idx, min retries cl.length - i = m → i ≤ min retries cl.length →
      (∀ j, i ≤ j → j < min retries cl.length → goodResp (oracle j) = false) →
      analyzeLoop oracle retries i ⟨cl, idx⟩
        = ⟨.error (), min retries cl.length,
            rrAfter ⟨cl, idx⟩ (min retries cl.length - i)⟩ := by
  intro m
  induction m with
  | zero =>
    intro i idx hm hi _hbad
    have hie : i = min retries cl.length := by omega
    rw [analyzeLoop_exit oracle retries cl idx i (by omega), hm, hie]
    rfl
  | succ m ih =>
    intro i idx hm hi hbad
    have hlt : i < min retries cl.length := by omega
    have hcl : cl.length ≠ 0 := by omega
    have hfront :
        rrAfter ⟨cl, idx⟩ (min retries cl.length - i)
          = rrAfter ⟨cl, (idx + 1) % cl.length⟩ (min retries cl.length - (i + 1)) := by
      have hstep : min retries cl.length - i = (min retries cl.length - (i + 1)) + 1 := by
        omega
      rw [hstep, rrAfter_front, rrStep_eq cl idx hcl]
    have hrec := ih (i + 1) ((idx + 1) % cl.length) (by omega) (by omega)
      (fun j hj1 hj2 => hbad j (by omega) hj2)
    have hbadi := hbad i le_rfl hlt
    cases hor : oracle i with
    | exn =>
      rw [analyzeLoop_step_exn oracle retries cl idx i (by omega) (by omega) hor, hrec,
        hfront]
    | ok t =>
      rw [hor] at hbadi
      simp only [goodResp, Bool.not_eq_false'] at hbadi
      rw [analyzeLoop_step_empty oracle retries cl idx i t (by omega) (by omega) hor hbadi,
        hrec, hfront]

theorem analyzeLoop_first_good (oracle : Nat → ModelResp) (retries : Nat) (cl : List String)
    (g : Nat) (t : String) (hg : g < min retries cl.length) (hot : oracle g = .ok t)
    (hgood : goodResp (.ok t) = true) :
    ∀ m i idx, g - i = m → i ≤ g →
      (∀ j, i ≤ j → j < g → goodResp (oracle j) = false) →
      analyzeLoop oracle retries i ⟨cl, idx⟩
        = ⟨.ok t, g + 1, rrAfter ⟨cl, idx⟩ (g + 1 - i)⟩ := by
  have hcl : cl.length ≠ 0 := by omega
  simp only [goodResp, Bool.not_eq_true'] at hgood
  intro m
  induction m with
  | zero =>
    intro i idx hm hi _hbad
    have hie : i = g := by omega
    subst hie
    rw [analyzeLoop_step_good oracle retries cl idx i t (by omega) (by omega) hot hgood]
    have hone : i + 1 - i = 1 := by omega
    rw [hone]
    show _ = AnalyzeResult.mk (.ok t) (i + 1) (rrStep ⟨cl, idx⟩)
    rw [rrStep_eq cl idx hcl]
  | succ m ih =>
    intro i idx hm hi hbad
    have hlt : i < g := by omega
    have hfront :
        rrAfter ⟨cl, idx⟩ (g + 1 - i)
          = rrAfter ⟨cl, (idx + 1) % cl.length⟩ (g + 1 - (i + 1)) := by
      have hstep : g + 1 - i = (g + 1 - (i + 1)) + 1 := by omega
      rw [hstep, rrAfter_front, rrStep_eq cl idx hcl]
    have hrec := ih (i + 1) ((idx + 1) % cl.length) (by omega) (by omega)
      (fun j hj1 hj2 => hbad j (by omega) hj2)
    have hbadi := hbad i le_rfl hlt
    cases hor : oracle i with
    | exn =>
      rw [analyzeLoop_step_exn oracle retries cl idx i (by omega) (by omega) hor, hrec,
        hfront]
    | ok s =>
      rw [hor] at hbadi
      simp only [goodResp, Bool.not_eq_false'] at hbadi
      rw [analyzeLoop_step_empty oracle retries cl idx i s (by omega) (by omega) hor hbadi,
        hrec, hfront]

/-- C6: `analyzeImage` spends at most `min(retries, poolSize)` attempts;
it fails exactly when every attempt in that budget is bad (an exception
or an empty / whitespace-only response, which counts as a retryable
failure inside the same budget); on failure every retry slot was spent;
on success the returned text is the first good response; and the
rotator cursor is advanced exactly once per attempt, so each attempt
acquires a fresh credential. -/
theorem claim6_analyze_retry_budget (cl : List String) (oracle : Nat → ModelResp)
    (retries : Nat) :
    (analyzeImage ⟨cl, 0⟩ oracle retries).attempts ≤ min retries cl.length
    ∧ ((analyzeImage ⟨cl, 0⟩ oracle retries).result = .error ()
        ↔ ∀ j, j < min retries cl.length → goodResp (oracle j) = false)
    ∧ ((analyzeImage ⟨cl, 0⟩ oracle retries).result = .error ()
        → (analyzeImage ⟨cl, 0⟩ oracle retries).attempts = min retries cl.length)
    ∧ (∀ t, (analyzeImage ⟨cl, 0⟩ oracle retries).result = .ok t
        → ∃ g, g < min retries cl.length ∧ oracle g = .ok t
            ∧ (∀ j, j < g → goodResp (oracle j) = false)
            ∧ (analyzeImage ⟨cl, 0⟩ oracle retries).attempts = g + 1)
    ∧ (analyzeImage ⟨cl, 0⟩ oracle retries).final
        = rrAfter ⟨cl, 0⟩ (analyzeImage ⟨cl, 0⟩ oracle retries).attempts := by
  classical
  by_cases hex : ∃ g, g < min retries cl.length ∧ goodResp (oracle g) = true
  · have hg := Nat.find_spec hex
    set g := Nat.find hex with hgdef
    have hmin : ∀ j, j < g → goodResp (oracle j) = false := by
      intro j hj
      have hnm := Nat.find_min hex hj
      by_contra hcon
      exact hnm ⟨lt_trans hj hg.1, by revert hcon; cases goodResp (oracle j) <;> simp⟩
    obtain ⟨t, hot⟩ : ∃ t, oracle g = .ok t := by
      cases ho : oracle g with
      | exn => rw [ho] at hg; simp [goodResp] at hg
      | ok t => exact ⟨t, rfl⟩
    have hgood : goodResp (.ok t) = true := by rw [← hot]; exact hg.2
    have hrun := analyzeLoop_first_good oracle retries cl g t hg.1 hot hgood
      g 0 0 (by omega) (by omega) (fun j hj1 hj2 => hmin j hj2)
    have hrunA : analyzeImage ⟨cl, 0⟩ oracle retries
        = ⟨.ok t, g + 1, rrAfter ⟨cl, 0⟩ (g + 1)⟩ := by
      rw [analyzeImage, hrun, Nat.sub_zero]
    rw [hrunA]
    refine ⟨?_, ?_, ?_, ?_, rfl⟩
    · show g + 1 ≤ min retries cl.length
      omega
    · constructor
      · intro hcon
        exact Except.noConfusion hcon
      · intro hallb
        have hcontra := hallb g hg.1
        rw [hg.2] at hcontra
        exact Bool.noConfusion hcontra
    · intro hcon
      exact Except.noConfusion hcon
    · intro s hs
      have hts : t = s := by injection hs
      subst hts
      exact ⟨g, hg.1, hot, hmin, rfl⟩
  · push_neg at hex
    have hall : ∀ j, j < min retries cl.length → goodResp (oracle j) = false := by
      intro j hj
      have hne := hex j hj
      revert hne
      cases goodResp (oracle j) <;> simp
    have hrun := analyzeLoop_all_bad oracle retries cl
      (min retries cl.length) 0 0 (by omega) (by omega) (fun j _ hj => hall j hj)
    have hrunA : analyzeImage ⟨cl, 0⟩ oracle retries
        = ⟨.error (), min retries cl.length, rrAfter ⟨cl, 0⟩ (min retries cl.length)⟩ := by
      rw [analyzeImage, hrun, Nat.sub_zero]
    rw [hrunA]
    refine ⟨le_refl _, ⟨fun _ => hall, fun _ => rfl⟩, fun _ => rfl, ?_, rfl⟩
    intro s hs
    exact Except.noConfusion hs

/-- Oracle for the `claim6` witness: every attempt throws. -/
def oracleC6W : Nat → ModelResp := fun _ => .exn

theorem claim6_witness :
    (analyzeImage ⟨["k1", "k2"], 0⟩ oracleC6W 3).result = .error ()
    ∧ (analyzeImage ⟨["k1", "k2"], 0⟩ oracleC6W 3).attempts = 2 := by
  have h := claim6_analyze_retry_budget ["k1", "k2"] oracleC6W 3
  have herr : (analyzeImage ⟨["k1", "k2"], 0⟩ oracleC6W 3).result = .error () :=
    h.2.1.mpr (fun j _ => rfl)
  exact ⟨herr, h.2.2.1 herr⟩

/-! ## Inference gateway: `verifyExtraction` response parsing
(src/lib/gemini.ts, lines 61-138) -/

/-- Opening curly brace character. -/
def lbraceChar : Char := Char.ofNat 123

/-- Closing curly brace character. -/
def rbraceChar : Char := Char.ofNat 125

/-- Double-quote character. -/
def quoteChar : Char := Char.ofNat 34

/-- Consume one expected character. -/
def expectChar (c : Char) : List Char → Option (List Char)
  | [] => none
  | x :: xs => if x == c then some xs else none

/-- Consume an expected literal character sequence. -/
def dropLit : List Char → List Char → Option (List Char)
  | [], cs => some cs
  | _ :: _, [] => none
  | p :: ps, c :: cs => if c == p then dropLit ps cs else none

/-- Greedily take decimal digits (the `\d*` part of `\d+`). -/
def takeDigits : List Char → List Char × List Char
  | [] => ([], [])
  | c :: cs =>
    if c.isDigit then
      let p := takeDigits cs
      (c :: p.1, p.2)
    else ([], c :: cs)

/-- Match `\d+`: one or more decimal digits, greedily. -/
def digits1 (cs : List Char) : Option (List Char × List Char) :=
  match takeDigits cs with
  | ([], _) => none
  | (d, r) => some (d, r)

/-- Greedily take characters other than a double quote (`[^"]*`). -/
def takeNotQuote : List Char → List Char × List Char
  | [] => ([], [])
  | c :: cs =>
    if c == quoteChar then ([], c :: cs)
    else
      let p := takeNotQuote cs
      (c :: p.1, p.2)

/-- Match `[^"]+`: one or more non-quote characters, greedily. -/
def notQuote1 (cs : List Char) : Option (List Char × List Char) :=
  match takeNotQuote cs with
  | ([], _) => none
  | (f, r) => some (f, r)

/-- Match the first verification regex
`\{\s*"score"\s*:\s*(\d+)\s*,\s*"feedback"\s*:\s*"([^"]+)"\s*\}`
at the start of the input, returning the two captures. Every greedy
component is followed by a character disjoint from it, so maximal-munch
scanning coincides with the JavaScript regex semantics. -/
def matchScoreFeedbackAt (cs : List Char) : Option (List Char × List Char) := do
  let c1 ← expectChar lbraceChar cs
  let c2 ← dropLit "\"score\"".data (c1.dropWhile jsWs)
  let c3 ← expectChar ':' (c2.dropWhile jsWs)
  let (d, c4) ← digits1 (c3.dropWhile jsWs)
  let c5 ← expectChar ',' (c4.dropWhile jsWs)
  let c6 ← dropLit "\"feedback\"".data (c5.dropWhile jsWs)
  let c7 ← expectChar ':' (c6.dropWhile jsWs)
  let c8 ← expectChar quoteChar (c7.dropWhile jsWs)
  let (f, c9) ← notQuote1 c8
  let c10 ← expectChar quoteChar c9
  let _ ← expectChar rbraceChar (c10.dropWhile jsWs)
  some (d, f)

/-- Match the second verification regex `\{\s*"score"\s*:\s*(\d+)\s*\}`
at the start of the input, returning the digits capture. -/
def matchScoreOnlyAt (cs : List Char) : Option (List Char) := do
  let c1 ← expectChar lbraceChar cs
  let c2 ← dropLit "\"score\"".data (c1.dropWhile jsWs)
  let c3 ← expectChar ':' (c2.dropWhile jsWs)
  let (d, c4) ← digits1 (c3.dropWhile jsWs)
  let _ ← expectChar rbraceChar (c4.dropWhile jsWs)
  some d

/-- Match the fallback regex `score["\s:]*(\d+)` at the start of the
input, returning the digits capture. -/
def matchScoreLooseAt (cs : List Char) : Option (List Char) := do
  let c1 ← dropLit "score".data cs
  let c2 := c1.dropWhile (fun c => c == quoteChar || jsWs c || c == ':')
  let (d, _) ← digits1 c2
  some d

/-- Unanchored regex search: try the anchored matcher at every start
position, left to right, returning the leftmost match. -/
def searchFirst {α : Type} (p : List Char → Option α) : List Char → Option α
  | [] => p []
  | c :: cs =>
    match p (c :: cs) with
    | some r => some r
    | none => searchFirst p cs

/-- Decimal value of a digit string, as computed by `parseInt`. -/
def digitsToNat (ds : List Char) : Nat :=
  ds.foldl (fun n c => n * 10 + (c.toNat - 48)) 0

/-- Outcome of the model call inside `verifyExtraction`: either the
call threw or it produced a response text. -/
inductive CallResult where
  | exn
  | ok (text : String)

/-- Embedding of the response-parsing tail of `verifyExtraction`:
trim the text, then try the three regexes in order; if none matches,
degrade to `{score: 0, feedback: 'Verification failed'}`. -/
def verifyParse (text : String) : VerificationResult :=
  match searchFirst matchScoreFeedbackAt (jsTrim text).data with
  | some (d, f) => ⟨Int.ofNat (digitsToNat d), String.mk f⟩
  | none =>
    match searchFirst matchScoreOnlyAt (jsTrim text).data with
    | some d => ⟨Int.ofNat (digitsToNat d), "Needs improvement"⟩
    | none =>
      match searchFirst matchScoreLooseAt (jsTrim text).data with
      | some d => ⟨Int.ofNat (digitsToNat d), "Needs improvement"⟩
      | none => ⟨0, "Verification failed"⟩

/-- Embedding of `verifyExtraction`: a thrown model call is caught and
degraded to `{score: 0, feedback: 'Verification error'}`; a returned
text is parsed by `verifyParse`. The function is total: no input
propagates an exception. -/
def verifyExtraction : CallResult → VerificationResult
  | .exn => ⟨0, "Verification error"⟩
  | .ok text => verifyParse text

/-- Response text with no parsable score: all three regexes fail on it. -/
def noParsableScore (t : String) : Bool :=
  (searchFirst matchScoreFeedbackAt (jsTrim t).data).isNone
    && (searchFirst matchScoreOnlyAt (jsTrim t).data).isNone
    && (searchFirst matchScoreLooseAt (jsTrim t).data).isNone

/-- C5: `verifyExtraction` is total on failure. If the model call
throws it returns `{score: 0, feedback: 'Verification error'}`, and if
the response contains no parsable score (all three regex fallbacks
fail) it returns `{score: 0, feedback: 'Verification failed'}`; in
both cases a diagnostic result is produced instead of an exception, so
a verification failure never aborts the page. -/
theorem claim5_verify_total_on_failure (t : String) :
    (noParsableScore t = true
      → verifyExtraction (.ok t) = ⟨0, "Verification failed"⟩)
    ∧ verifyExtraction .exn = ⟨0, "Verification error"⟩ := by
  refine ⟨?_, rfl⟩
  intro h
  simp only [noParsableScore, Bool.and_eq_true, Option.isNone_iff_eq_none] at h
  obtain ⟨⟨h1, h2⟩, h3⟩ := h
  simp [verifyExtraction, verifyParse, h1, h2, h3]

theorem claim5_witness :
    verifyExtraction (CallResult.ok "hello") = ⟨0, "Verification failed"⟩
    ∧ verifyExtraction CallResult.exn = ⟨0, "Verification error"⟩ :=
  ⟨(claim5_verify_total_on_failure "hello").1 (by decide),
    (claim5_verify_total_on_failure "hello").2⟩

/-! ## Response parser (`parseGeminiResponse`, src/App.tsx lines 434-482) -/

/-- JSON values, the possible results of `JSON.parse`. Numbers are
modelled as integers; fractional values play no role in the parsed
question fields. -/
inductive Json where
  | null
  | bool (b : Bool)
  | num (n : Int)
  | str (s : String)
  | arr (elems : List Json)
  | obj (fields : List (String × Json))

/-- Property lookup on a JSON value: first matching key of an object,
`none` (JavaScript `undefined`) otherwise. -/
def Json.getField : Json → String → Option Json
  | .obj fs, k => fs.lookup k
  | _, _ => none

/-- Property lookup defaulting to `null`; `null` and `undefined` agree
on every use the parser makes of the result (truthiness). -/
def Json.getFieldD (j : Json) (k : String) : Json :=
  match j.getField k with
  | some v => v
  | none => .null

/-- JavaScript truthiness of a JSON value. -/
def Json.truthy : Json → Bool
  | .null => false
  | .bool b => b
  | .num n => !(n == 0)
  | .str s => !(s == "")
  | .arr _ => true
  | .obj _ => true

/-- Array test, used for the scalar-into-array normalization. -/
def Json.isArr : Json → Bool
  | .arr _ => true
  | _ => false

/-- One question-type configuration row (`QuestionType` in
src/types.ts): the type tag, whether it is enabled, and the marking
scheme attached to records of that type. -/
structure QuestionType where
  type : String
  enabled : Bool
  correct_marks : Int
  incorrect_marks : Int
  skipped_marks : Int
  partial_marks : Int
  time_minutes : Int
deriving DecidableEq

/-- The `DEFAULT_QUESTION_TYPES` constant of src/App.tsx. -/
def defaultQuestionTypes : List QuestionType :=
  [ { type := "MCQ", enabled := true, correct_marks := 4, incorrect_marks := -1,
      skipped_marks := 0, partial_marks := 0, time_minutes := 3 },
    { type := "MSQ", enabled := true, correct_marks := 4, incorrect_marks := -2,
      skipped_marks := 0, partial_marks := 1, time_minutes := 3 },
    { type := "NAT", enabled := true, correct_marks := 4, incorrect_marks := 0,
      skipped_marks := 0, partial_marks := 0, time_minutes := 3 },
    { type := "SUB", enabled := true, correct_marks := 10, incorrect_marks := 0,
      skipped_marks := 0, partial_marks := 2, time_minutes := 15 } ]

/-- A slot row as loaded from storage (`Slot` in src/types.ts). -/
structure SlotRow where
  id : String
  slot_name : String
deriving DecidableEq

/-- A part row as loaded from storage (`Part` in src/types.ts). -/
structure PartRow where
  id : String
  part_name : String
deriving DecidableEq

/-- The component state `parseGeminiResponse` closes over:
the question-type configuration and the current selection. -/
structure AppCtx where
  questionTypes : List QuestionType
  slots : List SlotRow
  parts : List PartRow
  selectedCourse : String
  selectedSlot : String
  selectedPart : String

/-- A parsed question record (`ExtractedQuestion` in src/types.ts).
`question_statement` and `options` keep the JSON values attached
verbatim by the parser. -/
structure ExtractedQuestion where
  question_type : String
  question_statement : Json
  options : Option Json
  course_id : String
  year : Int
  slot : String
  part : String
  correct_marks : Int
  incorrect_marks : Int
  skipped_marks : Int
  partial_marks : Int
  time_minutes : Int
  categorized : Bool
  slot_id : String
  part_id : String

theorem dropLit_length : ∀ ps cs r, dropLit ps cs = some r → r.length ≤ cs.length := by
  intro ps
  induction ps with
  | nil =>
    intro cs r h
    simp only [dropLit, Option.some.injEq] at h
    subst h
    exact le_refl _
  | cons p ps ih =>
    intro cs r h
    cases cs with
    | nil => exact absurd h (by simp [dropLit])
    | cons c cs =>
      simp only [dropLit] at h
      by_cases hc : (c == p) = true
      · rw [if_pos hc] at h
        have := ih cs r h
        simp
        omega
      · rw [if_neg hc] at h
        exact absurd h (by simp)

/-- Remove every occurrence of the pattern `p0 :: ps` optionally
followed by a newline, scanning left to right and continuing after
each removal: the semantics of `replace(/PAT\n?/g, '')`. The fuel
argument only bounds the recursion; started at the input length it is
never exhausted, because every step consumes at least one character. -/
def stripPatAux (p0 : Char) (ps : List Char) : Nat → List Char → List Char
  | 0, cs => cs
  | _ + 1, [] => []
  | fuel + 1, c :: cs =>
    match dropLit (p0 :: ps) (c :: cs) with
    | some (nl :: rest) =>
      if nl == '\n' then stripPatAux p0 ps fuel rest
      else stripPatAux p0 ps fuel (nl :: rest)
    | some [] => []
    | none => c :: stripPatAux p0 ps fuel cs

/-- Apply `stripPat` for a pattern given as a string literal
(the empty pattern never occurs here). -/
def stripPatStr (pat : String) (cs : List Char) : List Char :=
  match pat.data with
  | [] => cs
  | p0 :: ps => stripPatAux p0 ps cs.length cs

/-- The code-fence stripping of `parseGeminiResponse`:
`jsonStr.replace(/```json\n?/g, '').replace(/```\n?/g, '')`. -/
def stripFences (s : String) : String :=
  String.mk (stripPatStr "```" (stripPatStr "```json" s.data))

/-- Lookup of `questionTypes.find(t => t.type === q.question_type && t.enabled)`:
the strict equality succeeds only when the JSON value is the matching
string. -/
def findQuestionType (qts : List QuestionType) (v : Json) : Option QuestionType :=
  qts.find? (fun t => (match v with | .str s => s == t.type | _ => false) && t.enabled)

/-- The `q.options || null` attachment: the element's options value
verbatim when truthy, `null` otherwise. -/
def optionsField (q : Json) : Option Json :=
  match q.getField "options" with
  | some v => if v.truthy then some v else none
  | none => none

/-- The element filter `q.question_type && q.question_statement`. -/
def elementKept (q : Json) : Bool :=
  (q.getFieldD "question_type").truthy && (q.getFieldD "question_statement").truthy

/-- The `.map` body of `parseGeminiResponse`: `null` (dropped) when the
element's type is disabled or unrecognized, otherwise the assembled
record. On success the type tag stored in the record equals the
configuration row's tag, since the strict equality in the lookup forced
them equal. -/
def mapQuestion (ctx : AppCtx) (year : Int) (q : Json) : Option ExtractedQuestion :=
  match findQuestionType ctx.questionTypes (q.getFieldD "question_type") with
  | none => none
  | some qt =>
    some
      { question_type := qt.type
        question_statement := q.getFieldD "question_statement"
        options := optionsField q
        course_id := ctx.selectedCourse
        year := year
        slot :=
          match ctx.slots.find? (fun s => s.id == ctx.selectedSlot) with
          | some s => s.slot_name
          | none => ""
        part :=
          match ctx.parts.find? (fun p => p.id == ctx.selectedPart) with
          | some p => p.part_name
          | none => ""
        correct_marks := qt.correct_marks
        incorrect_marks := qt.incorrect_marks
        skipped_marks := qt.skipped_marks
        partial_marks := qt.partial_marks
        time_minutes := qt.time_minutes
        categorized := false
        slot_id := ctx.selectedSlot
        part_id := ctx.selectedPart }

/-- The filter-then-map chain applied to the normalized element array. -/
def processArray (ctx : AppCtx) (year : Int) (xs : List Json) : List ExtractedQuestion :=
  (xs.filter elementKept).filterMap (mapQuestion ctx year)

/-- Post-parse processing: a failed `JSON.parse` (the `catch`) yields
the empty list, a top-level array is processed as is, and any other
top-level value is normalized into a one-element array. -/
def processParsed (ctx : AppCtx) (year : Int) : Option Json → List ExtractedQuestion
  | none => []
  | some (.arr xs) => processArray ctx year xs
  | some v => processArray ctx year [v]

/-- Embedding of `parseGeminiResponse`: trim, strip code fences, parse
(`jsonParse` models the external `JSON.parse`, `none` for a parse
error), then filter and map the elements. Total by construction: every
input yields a (possibly empty) list. -/
def parseGeminiResponse (ctx : AppCtx) (jsonParse : String → Option Json)
    (response : String) (year : Int) : List ExtractedQuestion :=
  processParsed ctx year (jsonParse (stripFences (jsTrim response)))

/-- C7: `parseGeminiResponse` is total (it returns a list for every
input string, never an exception, by construction): parsing is applied
to the trimmed, code-fence-stripped text; a JSON parse failure yields
the empty list; a top-level non-array value is normalized into a
one-element array; and an element that lacks a truthy `question_type`
or `question_statement`, or whose type is disabled or unrecognized, is
dropped silently. -/
theorem claim7_parser_never_throws (ctx : AppCtx) (jsonParse : String → Option Json)
    (response : String) (year : Int) :
    (parseGeminiResponse ctx jsonParse response year
      = processParsed ctx year (jsonParse (stripFences (jsTrim response))))
    ∧ (jsonParse (stripFences (jsTrim response)) = none
        → parseGeminiResponse ctx jsonParse response year = [])
    ∧ (∀ v, v.isArr = false
        → processParsed ctx year (some v) = processArray ctx year [v])
    ∧ (∀ q rest, elementKept q = false
        → processArray ctx year (q :: rest) = processArray ctx year rest)
    ∧ (∀ q rest, elementKept q = true
        → findQuestionType ctx.questionTypes (q.getFieldD "question_type") = none
        → processArray ctx year (q :: rest) = processArray ctx year rest) := by
  refine ⟨rfl, ?_, ?_, ?_, ?_⟩
  · intro h
    rw [parseGeminiResponse, h]
    rfl
  · intro v hv
    cases v <;> first | rfl | (exact absurd hv (by simp [Json.isArr]))
  · intro q rest hq
    simp [processArray, List.filter, hq]
  · intro q rest hq hfind
    simp [processArray, List.filter, hq, List.filterMap, mapQuestion, hfind]

/-- JSON-parse oracle for the `claim7` witness: every string fails to
parse. -/
def jpNoneW : String → Option Json := fun _ => none

/-- Context with the default configuration and an empty selection. -/
def ctxDefaultW : AppCtx :=
  { questionTypes := defaultQuestionTypes, slots := [], parts := [],
    selectedCourse := "", selectedSlot := "", selectedPart := "" }

theorem claim7_witness :
    parseGeminiResponse ctxDefaultW jpNoneW "not json" 2024 = [] :=
  (claim7_parser_never_throws ctxDefaultW jpNoneW "not json" 2024).2.1 rfl

/-- Raw model response used to refute C9: a single NAT question that
carries a non-empty options array. `JSON.parse` of this string yields
`jsonC9`. -/
def respC9 : String :=
  "[\x7b\"question_type\":\"NAT\",\"question_statement\":\"Q1\",\"options\":[\"A\",\"B\"]\x7d]"

/-- The parse of `respC9`. -/
def jsonC9 : Json :=
  .arr [.obj [("question_type", .str "NAT"), ("question_statement", .str "Q1"),
    ("options", .arr [.str "A", .str "B"])]]

/-- JSON-parse oracle agreeing with `JSON.parse` on `respC9`. -/
def jpC9 : String → Option Json := fun s => if s = respC9 then some jsonC9 else none

/-- C9 counterexample: the parser emits a record of type NAT carrying a
non-empty options sequence, so the MCQ/MSQ-only options invariant does
not hold at the parser's public interface. -/
theorem claim9_counterexample :
    (parseGeminiResponse ctxDefaultW jpC9 respC9 2024).map
        (fun r => (r.question_type, r.options))
      = [("NAT", some (Json.arr [Json.str "A", Json.str "B"]))] := rfl

/-- C9 amended: the parser attaches `options` verbatim (`q.options || null`)
for every accepted element regardless of its type; consequently a
record whose source element has no truthy `options` field carries none,
but nothing restricts non-empty options to MCQ/MSQ records. -/
theorem claim9_options_attached_verbatim (ctx : AppCtx) (year : Int) (q : Json)
    (r : ExtractedQuestion) (h : mapQuestion ctx year q = some r) :
    r.options = optionsField q ∧ (optionsField q = none → r.options = none) := by
  rw [mapQuestion] at h
  cases hf : findQuestionType ctx.questionTypes (q.getFieldD "question_type") with
  | none => rw [hf] at h; exact absurd h (by simp)
  | some qt =>
    rw [hf] at h
    simp only [Option.some.injEq] at h
    subst h
    exact ⟨rfl, fun hn => hn⟩

/-- Element used to witness the amended C9: a NAT question without an
options field. -/
def qNoOptW : Json := .obj [("question_type", .str "NAT"), ("question_statement", .str "S")]

/-- The record `mapQuestion` produces for `qNoOptW` under the default
configuration. -/
def recNoOptW : ExtractedQuestion :=
  { question_type := "NAT", question_statement := .str "S", options := none,
    course_id := "", year := 2024, slot := "", part := "", correct_marks := 4,
    incorrect_marks := 0, skipped_marks := 0, partial_marks := 0, time_minutes := 3,
    categorized := false, slot_id := "", part_id := "" }

theorem claim9_witness :
    mapQuestion ctxDefaultW 2024 qNoOptW = some recNoOptW ∧ recNoOptW.options = none :=
  ⟨rfl, (claim9_options_attached_verbatim ctxDefaultW 2024 qNoOptW recNoOptW rfl).2 rfl⟩

/-! ## Page convergence loop (`processPageWithExtraction`,
src/App.tsx lines 177-264, and the legacy inline loop of the
single-pass revision) -/

/-- The count-mismatch test
`expectedQuestionCount > 0 && questions.length < expectedQuestionCount`. -/
def questionMismatch (expected count : Nat) : Bool :=
  decide (0 < expected) && decide (count < expected)

/-- The fixed critical-mismatch clause appended to the feedback. -/
def mismatchClause (expected count : Nat) : String :=
  s!" (CRITICAL: Expected {expected} questions but only extracted {count}. Make sure no questions are skipped.)"

/-- The mismatch adjustment of one attempt (src/App.tsx lines 228-233):
on a mismatch, append the critical clause to the feedback and subtract
20 from the score, floored at 0; otherwise leave the verification
result unchanged. -/
def adjustVerify (expected count : Nat) (v : VerificationResult) : VerificationResult :=
  if questionMismatch expected count then
    { score := max 0 (v.score - 20), feedback := v.feedback ++ mismatchClause expected count }
  else v

/-- What the environment produced for one attempt of the page loop:
the extraction (or repair) call threw, or it returned text whose parse
is `qs`, with `v` the verification result for the same text (consulted
only when `qs` is non-empty, since the loop skips the verify call on
an empty parse). -/
inductive AttemptResult where
  | exn
  | parsed (qs : List ExtractedQuestion) (v : VerificationResult)

/-- The value returned by `processPageWithExtraction`. -/
structure PageResult where
  pageQuestions : List ExtractedQuestion
  pageProcessed : Bool
  shouldRetry : Bool

/-- Outcome of one iteration of the attempt loop: `done` for a
`return` or `break` (carrying the final `PageResult`), `next` for a
`continue` (carrying the feedback handed to the following repair). -/
inductive StepOut where
  | done (res : PageResult)
  | next (feedback : String)

/-- The empty-parse feedback of the retry pass. -/
def retryEmptyFeedback (qts : List QuestionType) : String :=
  "CRITICAL RETRY: This page MUST have "
    ++ String.intercalate " and/or " ((qts.filter (fun t => t.enabled)).map (fun t => t.type))
    ++ " questions. Extract EVERY question visible. Do not return empty."

/-- The empty-parse feedback of the first pass. -/
def emptyFeedback : String :=
  "No questions extracted. Scan image again and extract ALL complete questions visible on the page."

/-- The feedback set when an attempt throws and attempts remain. -/
def exnFeedback : String :=
  "Previous attempt failed. Retrying with next API key..."

/-- One iteration of the attempt loop of `processPageWithExtraction`.
`isLast` is `attempt === maxAttempts`. An exception on the last attempt
returns zero records flagged `shouldRetry: !isRetry`; an empty parse on
the last attempt does the same; a non-empty parse is accepted when the
adjusted score reaches 99, or reaches 95 without a mismatch, or when
this is the last attempt (the best-available records are kept). -/
def stepAttempt (isRetry : Bool) (qts : List QuestionType) (expected : Nat)
    (isLast : Bool) : AttemptResult → StepOut
  | .exn =>
    if isLast then .done ⟨[], false, !isRetry⟩ else .next exnFeedback
  | .parsed [] _ =>
    if !isLast then
      .next (if isRetry then retryEmptyFeedback qts else emptyFeedback)
    else .done ⟨[], false, !isRetry⟩
  | .parsed (q :: qs) v =>
    if decide (99 ≤ (adjustVerify expected (q :: qs).length v).score) then
      .done ⟨q :: qs, true, false⟩
    else if decide (95 ≤ (adjustVerify expected (q :: qs).length v).score)
        && !questionMismatch expected (q :: qs).length then
      .done ⟨q :: qs, true, false⟩
    else if !isLast then
      .next (adjustVerify expected (q :: qs).length v).feedback
    else
      .done ⟨q :: qs, true, false⟩

/-- The attempt loop, iterated from attempt number `attempt` with
`remaining` attempts left (the last attempt is the one with
`remaining = 1`); falling out of the loop without a `done` returns the
initial accumulator values, which only happens when the attempt budget
is zero. -/
def runLoop (isRetry : Bool) (qts : List QuestionType) (expected : Nat)
    (oracle : Nat → AttemptResult) : Nat → Nat → PageResult
  | _, 0 => ⟨[], false, false⟩
  | attempt, r + 1 =>
    match stepAttempt isRetry qts expected (r == 0) (oracle attempt) with
    | .done res => res
    | .next _ => runLoop isRetry qts expected oracle (attempt + 1) r

/-- The attempt budget: 8 on the retry pass, 6 on the first pass. -/
def maxAttempts (isRetry : Bool) : Nat := if isRetry then 8 else 6

/-- `processPageWithExtraction` for a page whose up-front count call
returned `expected`, with the per-attempt outcomes given by `oracle`
(1-indexed by attempt number). -/
def processPage (isRetry : Bool) (qts : List QuestionType) (expected : Nat)
    (oracle : Nat → AttemptResult) : PageResult :=
  runLoop isRetry qts expected oracle 1 (maxAttempts isRetry)

/-- The acceptance test of one attempt: a non-empty parse whose
adjusted score reaches 99, or reaches 95 with no count mismatch. -/
def acceptsAttempt (expected : Nat) : AttemptResult → Bool
  | .exn => false
  | .parsed [] _ => false
  | .parsed (q :: qs) v =>
    decide (99 ≤ (adjustVerify expected (q :: qs).length v).score)
      || (decide (95 ≤ (adjustVerify expected (q :: qs).length v).score)
          && !questionMismatch expected (q :: qs).length)

/-- The records parsed in one attempt. -/
def attemptRecords : AttemptResult → List ExtractedQuestion
  | .exn => []
  | .parsed qs _ => qs

/-- Whether an attempt produced a non-empty parse. -/
def isNonemptyParsed : AttemptResult → Bool
  | .parsed (_ :: _) _ => true
  | _ => false

/-! Legacy single-pass variant: the inline attempt loop of the older
`processPdfs` revision, whose final-attempt exception handler rethrows
(`if (attempt === maxAttempts) throw error`). -/

/-- Outcome of one iteration of the legacy loop: terminal records,
a rethrown exception, or a continue with new feedback. -/
inductive StepOutLegacy where
  | done (qs : List ExtractedQuestion)
  | thrown
  | next (feedback : String)

/-- One iteration of the legacy attempt loop. It differs from
`stepAttempt` in the two last-attempt failure paths: an exception is
rethrown, and an empty parse breaks out with the empty accumulator. -/
def stepAttemptLegacy (expected : Nat) (isLast : Bool) : AttemptResult → StepOutLegacy
  | .exn =>
    if isLast then .thrown else .next exnFeedback
  | .parsed [] _ =>
    if !isLast then .next emptyFeedback else .done []
  | .parsed (q :: qs) v =>
    if decide (99 ≤ (adjustVerify expected (q :: qs).length v).score) then
      .done (q :: qs)
    else if decide (95 ≤ (adjustVerify expected (q :: qs).length v).score)
        && !questionMismatch expected (q :: qs).length then
      .done (q :: qs)
    else if !isLast then
      .next (adjustVerify expected (q :: qs).length v).feedback
    else
      .done (q :: qs)

/-- The legacy attempt loop: `error` models the exception propagating
out of the page (and failing the whole document). -/
def runLoopLegacy (expected : Nat) (oracle : Nat → AttemptResult) :
    Nat → Nat → Except Unit (List ExtractedQuestion)
  | _, 0 => .ok []
  | attempt, r + 1 =>
    match stepAttemptLegacy expected (r == 0) (oracle attempt) with
    | .done qs => .ok qs
    | .thrown => .error ()
    | .next _ => runLoopLegacy expected oracle (attempt + 1) r

/-- The legacy per-page loop: 6 attempts, no retry pass. -/
def processPageLegacy (expected : Nat) (oracle : Nat → AttemptResult) :
    Except Unit (List ExtractedQuestion) :=
  runLoopLegacy expected oracle 1 6

theorem runLoop_succ (isRetry : Bool) (qts : List QuestionType) (expected : Nat)
    (oracle : Nat → AttemptResult) (a r : Nat) :
    runLoop isRetry qts expected oracle a (r + 1)
      = match stepAttempt isRetry qts expected (r == 0) (oracle a) with
        | .done res => res
        | .next _ => runLoop isRetry qts expected oracle (a + 1) r := rfl

theorem stepAttempt_accept (isRetry : Bool) (qts : List QuestionType) (expected : Nat)
    (isLast : Bool) (o : AttemptResult) (h : acceptsAttempt expected o = true) :
    stepAttempt isRetry qts expected isLast o = .done ⟨attemptRecords o, true, false⟩ := by
  cases o with
  | exn => exact absurd h (by simp [acceptsAttempt])
  | parsed qs v =>
    cases qs with
    | nil => exact absurd h (by simp [acceptsAttempt])
    | cons q rest =>
      simp only [stepAttempt, attemptRecords]
      by_cases h99 : (decide (99 ≤ (adjustVerify expected (q :: rest).length v).score)) = true
      · rw [if_pos h99]
      · rw [if_neg h99]
        have h95 : (decide (95 ≤ (adjustVerify expected (q :: rest).length v).score)
            && !questionMismatch expected (q :: rest).length) = true := by
          simp only [acceptsAttempt, Bool.or_eq_true] at h
          rcases h with h | h
          · exact absurd h h99
          · exact h
        rw [if_pos h95]

theorem stepAttempt_continue (isRetry : Bool) (qts : List QuestionType) (expected : Nat)
    (o : AttemptResult) (h : acceptsAttempt expected o = false) :
    ∃ fb, stepAttempt isRetry qts expected false o = .next fb := by
  cases o with
  | exn => exact ⟨exnFeedback, rfl⟩
  | parsed qs v =>
    cases qs with
    | nil => exact ⟨_, rfl⟩
    | cons q rest =>
      simp only [acceptsAttempt, Bool.or_eq_false_iff] at h
      simp only [stepAttempt]
      rw [if_neg (fun hc => by rw [h.1] at hc; exact Bool.noConfusion hc),
        if_neg (fun hc => by rw [h.2] at hc; exact Bool.noConfusion hc)]
      exact ⟨_, rfl⟩

theorem stepAttempt_last_parsed (isRetry : Bool) (qts : List QuestionType) (expected : Nat)
    (q : ExtractedQuestion) (qs : List ExtractedQuestion) (v : VerificationResult) :
    stepAttempt isRetry qts expected true (.parsed (q :: qs) v)
      = .done ⟨q :: qs, true, false⟩ := by
  simp only [stepAttempt]
  by_cases h99 : (decide (99 ≤ (adjustVerify expected (q :: qs).length v).score)) = true
  · rw [if_pos h99]
  · rw [if_neg h99]
    by_cases h95 : (decide (95 ≤ (adjustVerify expected (q :: qs).length v).score)
        && !questionMismatch expected (q :: qs).length) = true
    · rw [if_pos h95]
    · rw [if_neg h95]
      rfl

theorem runLoop_accept_at (isRetry : Bool) (qts : List QuestionType) (expected : Nat)
    (oracle : Nat → AttemptResult) :
    ∀ r a i, a ≤ i → i < a + r →
      (∀ j, a ≤ j → j < i → acceptsAttempt expected (oracle j) = false) →
      acceptsAttempt expected (oracle i) = true →
      runLoop isRetry qts expected oracle a r = ⟨attemptRecords (oracle i), true, false⟩ := by
  intro r
  induction r with
  | zero =>
    intro a i hai hir
    omega
  | succ r ih =>
    intro a i hai hir hbefore hacc
    by_cases hia : i = a
    · subst hia
      rw [runLoop_succ, stepAttempt_accept isRetry qts expected ((r == 0)) (oracle i) hacc]
    · have hlt : a < i := by omega
      have hr : r ≠ 0 := by omega
      obtain ⟨fb, hfb⟩ := stepAttempt_continue isRetry qts expected (oracle a)
        (hbefore a le_rfl hlt)
      rw [runLoop_succ, show (r == 0) = false by simpa using hr, hfb]
      exact ih (a + 1) i (by omega) (by omega)
        (fun j hj1 hj2 => hbefore j (by omega) hj2) hacc

/-- C1: the page loop terminates in the accepted state exactly on the
first attempt whose adjusted (effective) score reaches 99, or reaches
95 with no count mismatch: if no attempt before `i` satisfies the
acceptance test and attempt `i` does, the loop's outcome is exactly
attempt `i`'s parsed records with `pageProcessed = true` and no retry
flag — and since the hypotheses constrain the oracle only up to
attempt `i`, the conclusion holds whatever later attempts would have
produced, so no further attempts are spent. -/
theorem claim1_first_accepting_attempt (isRetry : Bool) (qts : List QuestionType)
    (expected : Nat) (oracle : Nat → AttemptResult) (i : Nat)
    (h1 : 1 ≤ i) (h2 : i ≤ maxAttempts isRetry)
    (hbefore : ∀ j, 1 ≤ j → j < i → acceptsAttempt expected (oracle j) = false)
    (hacc : acceptsAttempt expected (oracle i) = true) :
    processPage isRetry qts expected oracle = ⟨attemptRecords (oracle i), true, false⟩ :=
  runLoop_accept_at isRetry qts expected oracle (maxAttempts isRetry) 1 i h1
    (by omega) hbefore hacc

/-- Record used by the loop witnesses. -/
def sampleQuestionW : ExtractedQuestion :=
  { question_type := "MCQ", question_statement := .str "S",
    options := some (.arr [.str "A"]), course_id := "c", year := 2024, slot := "",
    part := "", correct_marks := 4, incorrect_marks := -1, skipped_marks := 0,
    partial_marks := 0, time_minutes := 3, categorized := false, slot_id := "",
    part_id := "" }

/-- Oracle for the `claim1` witness: attempt 2 scores 99, every other
attempt scores 50. -/
def oracleC1W : Nat → AttemptResult
  | 2 => .parsed [sampleQuestionW] ⟨99, "ok"⟩
  | _ => .parsed [sampleQuestionW] ⟨50, "low"⟩

theorem claim1_witness :
    processPage false [] 0 oracleC1W = ⟨[sampleQuestionW], true, false⟩ :=
  claim1_first_accepting_attempt false [] 0 oracleC1W 2 (by decide) (by decide)
    (fun j hj1 hj2 => by
      have hj : j = 1 := by omega
      subst hj
      decide)
    (by decide)

/-- C2: on a mismatch attempt (`expected > 0` and `count < expected`)
the adjustment applies the penalty exactly once — the effective score
equals `max(0, rawScore - 20)`, never a doubled penalty — and appends
the fixed critical-mismatch clause to the feedback; the acceptance
test of such an attempt consults exactly that effective score (the
95-branch is disabled by the mismatch); `expected = 5, count = 3,
rawScore = 90` yields 70; and any `rawScore ≤ 20` yields 0. -/
theorem claim2_mismatch_penalty (expected count : Nat) (raw : Int) (fb : String)
    (h1 : 0 < expected) (h2 : count < expected) :
    (adjustVerify expected count ⟨raw, fb⟩).score = max 0 (raw - 20)
    ∧ (adjustVerify expected count ⟨raw, fb⟩).feedback = fb ++ mismatchClause expected count
    ∧ (∀ (q : ExtractedQuestion) (qs : List ExtractedQuestion) (v : VerificationResult),
        (q :: qs).length = count
        → acceptsAttempt expected (.parsed (q :: qs) v)
            = decide (99 ≤ (adjustVerify expected count v).score))
    ∧ (raw ≤ 20 → (adjustVerify expected count ⟨raw, fb⟩).score = 0)
    ∧ (adjustVerify 5 3 ⟨90, fb⟩).score = 70 := by
  have hm : questionMismatch expected count = true := by
    simp [questionMismatch]
    omega
  refine ⟨?_, ?_, ?_, ?_, ?_⟩
  · rw [adjustVerify, if_pos hm]
  · rw [adjustVerify, if_pos hm]
  · intro q qs v hlen
    rw [acceptsAttempt, hlen, hm]
    simp
  · intro hraw
    rw [adjustVerify, if_pos hm]
    simp
    omega
  · rw [adjustVerify, if_pos (show questionMismatch 5 3 = true by decide)]
    rfl

theorem claim2_witness :
    (adjustVerify 5 3 ⟨90, "f"⟩).score = 70 ∧ (adjustVerify 5 3 ⟨15, "f"⟩).score = 0 :=
  ⟨(claim2_mismatch_penalty 5 3 90 "f" (by decide) (by decide)).2.2.2.2,
    (claim2_mismatch_penalty 5 3 15 "f" (by decide) (by decide)).2.2.2.1 (by decide)⟩

theorem runLoop_exhaust (isRetry : Bool) (qts : List QuestionType) (expected : Nat)
    (oracle : Nat → AttemptResult) :
    ∀ r a, 1 ≤ r →
      (∀ j, a ≤ j → j < a + r → isNonemptyParsed (oracle j) = true) →
      (∀ j, a ≤ j → j < a + r → acceptsAttempt expected (oracle j) = false) →
      runLoop isRetry qts expected oracle a r
        = ⟨attemptRecords (oracle (a + r - 1)), true, false⟩ := by
  intro r
  induction r with
  | zero =>
    intro a h1
    omega
  | succ r ih =>
    intro a _ hne hnoacc
    by_cases hr : r = 0
    · subst hr
      have hlast := hne a le_rfl (by omega)
      obtain ⟨q, qs, v, ho⟩ : ∃ q qs v, oracle a = .parsed (q :: qs) v := by
        cases hoa : oracle a with
        | exn => rw [hoa] at hlast; exact absurd hlast (by simp [isNonemptyParsed])
        | parsed qs v =>
          cases qs with
          | nil => rw [hoa] at hlast; exact absurd hlast (by simp [isNonemptyParsed])
          | cons q rest => exact ⟨q, rest, v, rfl⟩
      rw [runLoop_succ, ho]
      simp only [beq_self_eq_true]
      rw [stepAttempt_last_parsed, show a + 1 - 1 = a by omega, ho]
      rfl
    · obtain ⟨fb, hfb⟩ := stepAttempt_continue isRetry qts expected (oracle a)
        (hnoacc a le_rfl (by omega))
      rw [runLoop_succ, show (r == 0) = false by simpa using hr, hfb]
      have := ih (a + 1) (by omega)
        (fun j hj1 hj2 => hne j (by omega) (by omega))
        (fun j hj1 hj2 => hnoacc j (by omega) (by omega))
      rw [this, show a + 1 + r - 1 = a + (r + 1) - 1 by omega]

/-- C3: when every attempt of the budget parses a non-empty record set
but none reaches the acceptance thresholds, the loop's terminal
outcome is the last attempt's parsed records (with
`pageProcessed = true` and no retry flag), and that record set is
non-empty. -/
theorem claim3_exhaustion_keeps_last (isRetry : Bool) (qts : List QuestionType)
    (expected : Nat) (oracle : Nat → AttemptResult)
    (hne : ∀ j, 1 ≤ j → j ≤ maxAttempts isRetry → isNonemptyParsed (oracle j) = true)
    (hnoacc : ∀ j, 1 ≤ j → j ≤ maxAttempts isRetry
        → acceptsAttempt expected (oracle j) = false) :
    processPage isRetry qts expected oracle
      = ⟨attemptRecords (oracle (maxAttempts isRetry)), true, false⟩
    ∧ attemptRecords (oracle (maxAttempts isRetry)) ≠ [] := by
  have hpos : 1 ≤ maxAttempts isRetry := by
    cases isRetry <;> decide
  constructor
  · rw [processPage, runLoop_exhaust isRetry qts expected oracle (maxAttempts isRetry) 1 hpos
      (fun j hj1 hj2 => hne j hj1 (by omega))
      (fun j hj1 hj2 => hnoacc j hj1 (by omega))]
    rw [show 1 + maxAttempts isRetry - 1 = maxAttempts isRetry by omega]
  · have hlast := hne (maxAttempts isRetry) hpos le_rfl
    cases hoa : oracle (maxAttempts isRetry) with
    | exn => rw [hoa] at hlast; exact absurd hlast (by simp [isNonemptyParsed])
    | parsed qs v =>
      cases qs with
      | nil => rw [hoa] at hlast; exact absurd hlast (by simp [isNonemptyParsed])
      | cons q rest => simp [attemptRecords]

/-- Oracle for the `claim3` witness: every attempt parses one record
with a non-accepting score. -/
def oracleC3W : Nat → AttemptResult := fun _ => .parsed [sampleQuestionW] ⟨10, "low"⟩

theorem claim3_witness :
    processPage false [] 0 oracleC3W = ⟨[sampleQuestionW], true, false⟩
    ∧ attemptRecords (oracleC3W (maxAttempts false)) ≠ [] := by
  have h := claim3_exhaustion_keeps_last false [] 0 oracleC3W
    (fun j _ _ => rfl) (fun j _ _ => rfl)
  exact ⟨h.1, h.2⟩

/-- Oracle on which every attempt of a page loop throws. -/
def oracleExnW : Nat → AttemptResult := fun _ => .exn

/-- C8 counterexample: in the two-pass variant invoked on the retry
pass (`isRetry = true`), an exception on the final attempt neither
propagates nor marks the page a retry candidate — the loop completes
normally with zero records, `pageProcessed = false` and
`shouldRetry = false` — whereas the claim requires propagation outside
the permissive first pass. The legacy variant on the same oracle does
propagate. -/
theorem claim8_counterexample :
    processPage true [] 0 oracleExnW = ⟨[], false, false⟩
    ∧ processPageLegacy 0 oracleExnW = .error () := ⟨rfl, rfl⟩

/-- C8 amended: on the final attempt, the legacy single-pass variant
propagates the exception while the two-pass variant returns zero
records flagged a retry candidate exactly when invoked in first-pass
mode (`shouldRetry = !isRetry`, so never on the retry pass and without
propagation); on non-final attempts both variants absorb the
exception, set the generic retry feedback, and continue the loop. -/
theorem claim8_final_attempt_exception (isRetry : Bool) (qts : List QuestionType)
    (expected : Nat) (oracle : Nat → AttemptResult) (a r : Nat) :
    stepAttempt isRetry qts expected true .exn = .done ⟨[], false, !isRetry⟩
    ∧ stepAttempt isRetry qts expected false .exn = .next exnFeedback
    ∧ stepAttemptLegacy expected true .exn = .thrown
    ∧ stepAttemptLegacy expected false .exn = .next exnFeedback
    ∧ (oracle a = .exn
        → runLoop isRetry qts expected oracle a (r + 2)
            = runLoop isRetry qts expected oracle (a + 1) (r + 1))
    ∧ (oracle a = .exn
        → runLoopLegacy expected oracle a (r + 2)
            = runLoopLegacy expected oracle (a + 1) (r + 1)) := by
  refine ⟨rfl, rfl, rfl, rfl, ?_, ?_⟩
  · intro ho
    rw [runLoop_succ, ho]
    rfl
  · intro ho
    show (match stepAttemptLegacy expected ((r + 1) == 0) (oracle a) with
      | .done qs => Except.ok qs
      | .thrown => Except.error ()
      | .next _ => runLoopLegacy expected oracle (a + 1) (r + 1)) = _
    rw [ho]
    rfl

theorem claim8_witness :
    runLoop false [] 0 oracleExnW 1 3 = runLoop false [] 0 oracleExnW 2 2 :=
  (claim8_final_attempt_exception false [] 0 oracleExnW 1 1).2.2.2.2.1 rfl

/-! ## Document orchestrator (`processPdfs`, src/App.tsx lines 145-348) -/

/-- Status of a PDF file (`PDFFile.status` in src/types.ts). -/
inductive PdfStatus where
  | pending
  | processing
  | completed
  | error
deriving DecidableEq

/-- A PDF file entry (`PDFFile` in src/types.ts; the opaque browser
`File` object is omitted). -/
structure PDFFileRec where
  id : String
  year : Int
  status : PdfStatus
  progress : Int
  totalPages : Nat
  processedPages : Nat
  errorMsg : Option String
deriving DecidableEq

/-- Net update processing one file applies to the entries sharing its
id: every `setPdfFiles` call in the body spreads the previous entry
and overwrites these fields, so the id and year are preserved. -/
structure FileMut where
  status : PdfStatus
  progress : Int
  totalPages : Nat
  processedPages : Nat
  errorMsg : Option String
deriving DecidableEq

/-- Apply a net update to one entry, preserving id and year exactly as
the `{ ...p, field: v }` spreads do. -/
def applyMut (m : FileMut) (p : PDFFileRec) : PDFFileRec :=
  { id := p.id, year := p.year, status := m.status, progress := m.progress,
    totalPages := m.totalPages, processedPages := m.processedPages,
    errorMsg := m.errorMsg }

/-- Kinds of externally visible effects the body of `processPdfs`
performs for a file: rasterization, model calls, appending a record to
the result sequence, persistence attempts. -/
inductive EffectKind where
  | rasterize
  | modelCall
  | recordAppend
  | persist
deriving DecidableEq

/-- The `for (const pdfFile of pdfFiles)` loop of `processPdfs`: it
iterates over the snapshot of the file list, skips entries whose
status is already `completed` before doing anything, and otherwise
performs the body's effects (tagged with the file's id) and applies
the body's net state update to every entry sharing the id. `body`
and `effectsOf` are the environment's per-file outcome. -/
def processLoop (body : PDFFileRec → FileMut) (effectsOf : PDFFileRec → List EffectKind) :
    List PDFFileRec → List PDFFileRec → List PDFFileRec × List (String × EffectKind)
  | [], state => (state, [])
  | f :: rest, state =>
    if f.status = .completed then
      processLoop body effectsOf rest state
    else
      ((processLoop body effectsOf rest
          (state.map fun p => if p.id == f.id then applyMut (body f) p else p)).1,
        (effectsOf f).map (fun k => (f.id, k))
          ++ (processLoop body effectsOf rest
              (state.map fun p => if p.id == f.id then applyMut (body f) p else p)).2)

/-- `processPdfs` over a file list: the iteration snapshot and the
initial state are the same list. -/
def processPdfs (body : PDFFileRec → FileMut) (effectsOf : PDFFileRec → List EffectKind)
    (files : List PDFFileRec) : List PDFFileRec × List (String × EffectKind) :=
  processLoop body effectsOf files files

theorem filter_map_other_id (fid gid : String) (m : FileMut) (hne : gid ≠ fid) :
    ∀ state : List PDFFileRec,
      (state.map fun p => if p.id == gid then applyMut m p else p).filter
          (fun p => p.id == fid)
        = state.filter (fun p => p.id == fid) := by
  intro state
  induction state with
  | nil => rfl
  | cons p rest ih =>
    simp only [List.map_cons, List.filter_cons]
    by_cases hp : (p.id == gid) = true
    · have hpid : (p.id == fid) = false := by
        have hpg : p.id = gid := by simpa using hp
        simp [hpg, hne]
      have h2 : ((applyMut m p).id == fid) = false := hpid
      rw [if_pos hp, h2, hpid]
      simpa using ih
    · rw [if_neg hp]
      by_cases hf : (p.id == fid) = true
      · rw [hf]
        simpa using ih
      · have hf' : (p.id == fid) = false := by
          revert hf
          cases (p.id == fid) <;> simp
        rw [hf']
        simpa using ih

theorem processLoop_skip_completed (body : PDFFileRec → FileMut)
    (effectsOf : PDFFileRec → List EffectKind) (fid : String) :
    ∀ iter state, (∀ g, g ∈ iter → g.id = fid → g.status = .completed) →
      ((processLoop body effectsOf iter state).2.all (fun e => !(e.1 == fid)) = true)
      ∧ (processLoop body effectsOf iter state).1.filter (fun p => p.id == fid)
          = state.filter (fun p => p.id == fid) := by
  intro iter
  induction iter with
  | nil =>
    intro state _
    exact ⟨rfl, rfl⟩
  | cons g rest ih =>
    intro state hcomp
    by_cases hg : g.status = .completed
    · simp only [processLoop, if_pos hg]
      exact ih state (fun x hx => hcomp x (List.mem_cons_of_mem g hx))
    · have hgid : g.id ≠ fid := fun hc => hg (hcomp g (List.mem_cons_self g rest) hc)
      simp only [processLoop, if_neg hg]
      have hrec := ih (state.map fun p => if p.id == g.id then applyMut (body g) p else p)
        (fun x hx => hcomp x (List.mem_cons_of_mem g hx))
      constructor
      · rw [List.all_append, Bool.and_eq_true]
        refine ⟨?_, hrec.1⟩
        rw [List.all_eq_true]
        intro e he
        rw [List.mem_map] at he
        obtain ⟨k, _, hk⟩ := he
        subst hk
        simpa using hgid
      · rw [hrec.2, filter_map_other_id fid g.id (body g) hgid state]

/-- C10 (implicit frame effect): when `processPdfs` runs over a file
list, every document whose status is already `completed` is skipped
entirely — the effect trace contains no rasterization, model-call,
record-append or persistence effect tagged with its id, and the
entries carrying its id are left exactly as they were in the input
list (assuming, as the loop does, that no differently-statused entry
shares its id). -/
theorem claim10_completed_files_skipped (body : PDFFileRec → FileMut)
    (effectsOf : PDFFileRec → List EffectKind) (files : List PDFFileRec)
    (f : PDFFileRec) (hmem : f ∈ files) (hc : f.status = .completed)
    (hid : ∀ g, g ∈ files → g.id = f.id → g.status = .completed) :
    ((processPdfs body effectsOf files).2.all (fun e => !(e.1 == f.id)) = true)
    ∧ (processPdfs body effectsOf files).1.filter (fun p => p.id == f.id)
        = files.filter (fun p => p.id == f.id) :=
  processLoop_skip_completed body effectsOf f.id files files hid

/-- A file already marked completed, for the `claim10` witness. -/
def fileDoneW : PDFFileRec :=
  { id := "a", year := 2024, status := .completed, progress := 100, totalPages := 3,
    processedPages := 3, errorMsg := none }

/-- A pending file, for the `claim10` witness. -/
def filePendingW : PDFFileRec :=
  { id := "b", year := 2024, status := .pending, progress := 0, totalPages := 0,
    processedPages := 0, errorMsg := none }

/-- Per-file net update used by the `claim10` witness. -/
def bodyW : PDFFileRec → FileMut := fun _ =>
  { status := .completed, progress := 100, totalPages := 1, processedPages := 1,
    errorMsg := none }

/-- Per-file effects used by the `claim10` witness. -/
def effectsW : PDFFileRec → List EffectKind := fun _ =>
  [.rasterize, .modelCall, .recordAppend, .persist]

theorem claim10_witness :
    ((processPdfs bodyW effectsW [fileDoneW, filePendingW]).2.all
        (fun e => !(e.1 == fileDoneW.id)) = true)
    ∧ (processPdfs bodyW effectsW [fileDoneW, filePendingW]).1.filter
          (fun p => p.id == fileDoneW.id)
        = [fileDoneW, filePendingW].filter (fun p => p.id == fileDoneW.id) :=
  claim10_completed_files_skipped bodyW effectsW [fileDoneW, filePendingW] fileDoneW
    (List.mem_cons_self _ _) rfl
    (fun g hg hgid => by
      simp only [List.mem_cons, List.not_mem_nil, or_false] at hg
      rcases hg with hg | hg
      · subst hg
        rfl
      · subst hg
        exact absurd hgid (by decide))
